import Mathlib

/-!
Verification of the admission-control component (`RateLimiter`) of the
`educas` repository, shallowly embedded from `src/utils/rateLimiter.ts`
and `src/api/chat.ts`.

Timestamps are wall-clock instants in milliseconds since an epoch,
modelled as `Int`.  The per-client store `Map<string, number[]>` is
modelled as a total function `String → List Int` whose default value is
`[]` (matching `this.requests.get(clientId) || []`).  `console.warn` in
the three reject branches is modelled by the `warned` field of the call
outcome, recording which window triggered the rejection.
-/

/-- The three quota caps (`RateLimitConfig` in `rateLimiter.ts`). -/
structure RateLimitConfig where
  requestsPerMinute : Int
  requestsPerHour : Int
  requestsPerDay : Int
deriving DecidableEq, Repr

/-- A `Partial<RateLimitConfig>` as taken by the constructor: every
field may be absent. -/
structure PartialRateLimitConfig where
  requestsPerMinute : Option Int := none
  requestsPerHour : Option Int := none
  requestsPerDay : Option Int := none
deriving DecidableEq, Repr

/-- The limiter: per-client timestamp store plus configuration. -/
structure RateLimiter where
  requests : String → List Int
  config : RateLimitConfig

/-- The constructor `new RateLimiter(config?)`: each absent field falls
back through `??` to the documented default (60 / 1000 / 5000); the
client map starts empty. -/
def RateLimiter.make (config : Option PartialRateLimitConfig) : RateLimiter :=
  { requests := fun _ => []
    config :=
      { requestsPerMinute := (config.bind (·.requestsPerMinute)).getD 60
        requestsPerHour := (config.bind (·.requestsPerHour)).getD 1000
        requestsPerDay := (config.bind (·.requestsPerDay)).getD 5000 } }

/-- `const minute = 60 * 1000`. -/
def msPerMinute : Int := 60 * 1000

/-- `const hour = 60 * minute`. -/
def msPerHour : Int := 60 * msPerMinute

/-- `const day = 24 * hour`. -/
def msPerDay : Int := 24 * msPerHour

/-- `timestamps.filter(ts => now - ts < day)`. -/
def pruneDay (now : Int) (timestamps : List Int) : List Int :=
  timestamps.filter (fun ts => now - ts < msPerDay)

/-- `timestamps.filter(ts => now - ts < minute).length`. -/
def countLastMinute (now : Int) (timestamps : List Int) : Nat :=
  (timestamps.filter (fun ts => now - ts < msPerMinute)).length

/-- `timestamps.filter(ts => now - ts < hour).length`. -/
def countLastHour (now : Int) (timestamps : List Int) : Nat :=
  (timestamps.filter (fun ts => now - ts < msPerHour)).length

/-- Which window triggered a rejection (the label in `console.warn`). -/
inductive RateWindow where
  | minute
  | hour
  | day
deriving DecidableEq, Repr

/-- Outcome of a `checkLimit` call: the returned boolean, the window
named by `console.warn` when rejecting (`none` on admission), and the
limiter state after the call. -/
structure CheckOutcome where
  allowed : Bool
  warned : Option RateWindow
  limiter : RateLimiter

/-- `checkLimit(clientId)` evaluated at instant `now` (`Date.now()`):
look up the client's timestamps (empty if unseen), prune to the
trailing 24-hour window, count the minute and hour windows on the
pruned list, take its full length as the day count, reject on the
first window whose count reaches its cap, otherwise append `now`,
persist, and admit.  On rejection nothing is persisted: the pruned
list is discarded and the store is left as it was. -/
def checkLimit (rl : RateLimiter) (clientId : String) (now : Int) : CheckOutcome :=
  let timestamps := pruneDay now (rl.requests clientId)
  let lastMinute := countLastMinute now timestamps
  let lastHour := countLastHour now timestamps
  let lastDay := timestamps.length
  if rl.config.requestsPerMinute ≤ (lastMinute : Int) then
    { allowed := false, warned := some .minute, limiter := rl }
  else if rl.config.requestsPerHour ≤ (lastHour : Int) then
    { allowed := false, warned := some .hour, limiter := rl }
  else if rl.config.requestsPerDay ≤ (lastDay : Int) then
    { allowed := false, warned := some .day, limiter := rl }
  else
    { allowed := true, warned := none
      limiter :=
        { rl with
          requests := fun k =>
            if k = clientId then timestamps ++ [now] else rl.requests k } }

/-- Run a sequence of `checkLimit` calls, each a (clientId, instant)
pair, collecting the returned booleans and the final limiter state. -/
def runCalls (rl : RateLimiter) : List (String × Int) → List Bool × RateLimiter
  | [] => ([], rl)
  | (c, t) :: rest =>
    let o := checkLimit rl c t
    let r := runCalls o.limiter rest
    (o.allowed :: r.1, r.2)

/-- Run a sequence of calls for a single client at the given instants. -/
def runClient (rl : RateLimiter) (c : String) (ts : List Int) : List Bool × RateLimiter :=
  runCalls rl (ts.map (fun t => (c, t)))

/-- JS `Number(...)` applied to an environment variable: either a real
number or `NaN` (for an unset variable or a non-numeric string). -/
inductive JSNumber where
  | num (n : Int)
  | nan
deriving DecidableEq, Repr

/-- An environment variable as seen by `chat.ts`: unset, set to a
non-numeric string, or set to a numeric string with value `n`. -/
inductive EnvValue where
  | missing
  | nonNumeric
  | numeric (n : Int)
deriving DecidableEq, Repr

/-- `Number(process.env.X)`. -/
def toNumber : EnvValue → JSNumber
  | .missing => .nan
  | .nonNumeric => .nan
  | .numeric n => .num n

/-- JS `x || d` on a number: `NaN` and `0` are falsy and fall back. -/
def jsOrDefault : JSNumber → Int → Int
  | .nan, d => d
  | .num n, d => if n = 0 then d else n

/-- The module-level limiter instance of `src/api/chat.ts`:
`new RateLimiter({ requestsPerMinute: Number(env) || 15, ... })`. -/
def chatRateLimiter (e1 e2 e3 : EnvValue) : RateLimiter :=
  RateLimiter.make (some
    { requestsPerMinute := some (jsOrDefault (toNumber e1) 15)
      requestsPerHour := some (jsOrDefault (toNumber e2) 250)
      requestsPerDay := some (jsOrDefault (toNumber e3) 500) })

/-! ### Basic lemmas about a single `checkLimit` call -/

theorem checkLimit_minute_reject (rl : RateLimiter) (c : String) (t : Int)
    (h : rl.config.requestsPerMinute ≤ (countLastMinute t (pruneDay t (rl.requests c)) : Int)) :
    checkLimit rl c t = ⟨false, some .minute, rl⟩ := by
  simp only [checkLimit, if_pos h]

theorem checkLimit_hour_reject (rl : RateLimiter) (c : String) (t : Int)
    (hm : (countLastMinute t (pruneDay t (rl.requests c)) : Int) < rl.config.requestsPerMinute)
    (hh : rl.config.requestsPerHour ≤ (countLastHour t (pruneDay t (rl.requests c)) : Int)) :
    checkLimit rl c t = ⟨false, some .hour, rl⟩ := by
  simp only [checkLimit, if_neg (not_le.mpr hm), if_pos hh]

theorem checkLimit_day_reject (rl : RateLimiter) (c : String) (t : Int)
    (hm : (countLastMinute t (pruneDay t (rl.requests c)) : Int) < rl.config.requestsPerMinute)
    (hh : (countLastHour t (pruneDay t (rl.requests c)) : Int) < rl.config.requestsPerHour)
    (hd : rl.config.requestsPerDay ≤ ((pruneDay t (rl.requests c)).length : Int)) :
    checkLimit rl c t = ⟨false, some .day, rl⟩ := by
  simp only [checkLimit, if_neg (not_le.mpr hm), if_neg (not_le.mpr hh), if_pos hd]

theorem checkLimit_pass (rl : RateLimiter) (c : String) (t : Int)
    (hm : (countLastMinute t (pruneDay t (rl.requests c)) : Int) < rl.config.requestsPerMinute)
    (hh : (countLastHour t (pruneDay t (rl.requests c)) : Int) < rl.config.requestsPerHour)
    (hd : ((pruneDay t (rl.requests c)).length : Int) < rl.config.requestsPerDay) :
    checkLimit rl c t = ⟨true, none,
      { rl with requests := fun k =>
          if k = c then pruneDay t (rl.requests c) ++ [t] else rl.requests k }⟩ := by
  simp only [checkLimit, if_neg (not_le.mpr hm), if_neg (not_le.mpr hh), if_neg (not_le.mpr hd)]

theorem checkLimit_limiter_of_reject (rl : RateLimiter) (c : String) (t : Int)
    (h : (checkLimit rl c t).allowed = false) :
    (checkLimit rl c t).limiter = rl := by
  unfold checkLimit at h ⊢
  dsimp only at h ⊢
  split_ifs at h ⊢ <;> simp_all

theorem checkLimit_requests_self_of_allowed (rl : RateLimiter) (c : String) (t : Int)
    (h : (checkLimit rl c t).allowed = true) :
    (checkLimit rl c t).limiter.requests c = pruneDay t (rl.requests c) ++ [t] := by
  unfold checkLimit at h ⊢
  dsimp only at h ⊢
  split_ifs at h ⊢
  simp_all

theorem checkLimit_requests_other (rl : RateLimiter) (c k : String) (t : Int)
    (hk : k ≠ c) :
    (checkLimit rl c t).limiter.requests k = rl.requests k := by
  unfold checkLimit
  dsimp only
  split_ifs <;> simp [hk]

theorem checkLimit_limiter_config (rl : RateLimiter) (c : String) (t : Int) :
    (checkLimit rl c t).limiter.config = rl.config := by
  unfold checkLimit
  dsimp only
  split_ifs <;> rfl

theorem checkLimit_congr_pruned (rl1 rl2 : RateLimiter) (c : String) (t : Int)
    (hreq : pruneDay t (rl1.requests c) = pruneDay t (rl2.requests c))
    (hcfg : rl1.config = rl2.config) :
    (checkLimit rl1 c t).allowed = (checkLimit rl2 c t).allowed ∧
    (checkLimit rl1 c t).warned = (checkLimit rl2 c t).warned := by
  unfold checkLimit
  rw [hreq, hcfg]
  dsimp only
  split_ifs <;> simp

/-! ### Lemmas about call sequences -/

theorem runClient_nil (rl : RateLimiter) (c : String) : runClient rl c [] = ([], rl) := rfl

theorem runClient_cons (rl : RateLimiter) (c : String) (t : Int) (rest : List Int) :
    runClient rl c (t :: rest) =
      ((checkLimit rl c t).allowed :: (runClient (checkLimit rl c t).limiter c rest).1,
       (runClient (checkLimit rl c t).limiter c rest).2) := by
  simp [runClient, runCalls]

theorem runCalls_preserves_other (b : String) :
    ∀ (calls : List (String × Int)) (rl : RateLimiter),
      (∀ p ∈ calls, p.1 ≠ b) →
      (runCalls rl calls).2.requests b = rl.requests b ∧
      (runCalls rl calls).2.config = rl.config := by
  intro calls
  induction calls with
  | nil => intro rl _; exact ⟨rfl, rfl⟩
  | cons p rest ih =>
    intro rl h
    obtain ⟨c, t⟩ := p
    have hcb : c ≠ b := h (c, t) (by simp)
    have h1 : (checkLimit rl c t).limiter.requests b = rl.requests b :=
      checkLimit_requests_other rl c b t (Ne.symm hcb)
    have h2 := checkLimit_limiter_config rl c t
    have hrest := ih (checkLimit rl c t).limiter (fun q hq => h q (List.mem_cons_of_mem _ hq))
    simp only [runCalls]
    exact ⟨hrest.1.trans h1, hrest.2.trans h2⟩

theorem runCalls_config : ∀ (calls : List (String × Int)) (rl : RateLimiter),
    (runCalls rl calls).2.config = rl.config := by
  intro calls
  induction calls with
  | nil => intro rl; rfl
  | cons p rest ih =>
    intro rl
    obtain ⟨c, t⟩ := p
    simp only [runCalls]
    exact (ih _).trans (checkLimit_limiter_config rl c t)

theorem runClient_config (rl : RateLimiter) (c : String) (ts : List Int) :
    (runClient rl c ts).2.config = rl.config :=
  runCalls_config _ rl

/-- Each timestamp appended by an admitted call survives all later
pruning within the call sequence: if every call in the sequence is
admitted and all instants are within 24 hours of each other (and of
every element of `l`), then the sequence's instants end up, in order,
inside the client's stored list. -/
theorem runClient_sublist_requests (c : String) :
    ∀ (ts : List Int) (rl : RateLimiter) (l : List Int),
      l.Sublist (rl.requests c) →
      (∀ x ∈ l, ∀ u ∈ ts, u - x < msPerDay) →
      (∀ a ∈ ts, ∀ b ∈ ts, b - a < msPerDay) →
      (∀ r ∈ (runClient rl c ts).1, r = true) →
      (l ++ ts).Sublist ((runClient rl c ts).2.requests c) := by
  intro ts
  induction ts with
  | nil =>
    intro rl l hl _ _ _
    simpa [runClient_nil] using hl
  | cons t rest ih =>
    intro rl l hl hlt hts hadm
    have hallow : (checkLimit rl c t).allowed = true := by
      apply hadm
      rw [runClient_cons]
      exact List.mem_cons_self _ _
    have hreq := checkLimit_requests_self_of_allowed rl c t hallow
    have hfl : l.filter (fun x => decide (t - x < msPerDay)) = l := by
      apply List.filter_eq_self.mpr
      intro a ha
      exact decide_eq_true (hlt a ha t (List.mem_cons_self _ _))
    have hsub1 : (l ++ [t]).Sublist ((checkLimit rl c t).limiter.requests c) := by
      rw [hreq]
      refine List.Sublist.append ?_ (List.Sublist.refl [t])
      have := hl.filter (fun x => decide (t - x < msPerDay))
      rw [hfl] at this
      simpa [pruneDay] using this
    have hrest : ∀ x ∈ l ++ [t], ∀ u ∈ rest, u - x < msPerDay := by
      intro x hx u hu
      rcases List.mem_append.mp hx with hx | hx
      · exact hlt x hx u (List.mem_cons_of_mem _ hu)
      · rcases List.mem_singleton.mp hx with rfl
        exact hts x (List.mem_cons_self _ _) u (List.mem_cons_of_mem _ hu)
    have hts' : ∀ a ∈ rest, ∀ b ∈ rest, b - a < msPerDay := fun a ha b hb =>
      hts a (List.mem_cons_of_mem _ ha) b (List.mem_cons_of_mem _ hb)
    have hadm' : ∀ r ∈ (runClient (checkLimit rl c t).limiter c rest).1, r = true := by
      intro r hr
      apply hadm
      rw [runClient_cons]
      exact List.mem_cons_of_mem _ hr
    have hmain := ih (checkLimit rl c t).limiter (l ++ [t]) hsub1 hrest hts' hadm'
    rw [runClient_cons]
    simpa [List.append_assoc] using hmain

/-! ### Claims -/

/-- Claim C1: a cap of N admits at most N requests per window: after
exactly `requestsPerMinute` admitted calls for one client within a
one-minute span, the next call for that client within the same span
returns `false`. -/
theorem minute_cap_never_exceeded (rl : RateLimiter) (c : String) (ts : List Int) (tNext : Int)
    (hwin : ∀ t ∈ ts, t ≤ tNext ∧ tNext - t < msPerMinute)
    (hadm : ∀ r ∈ (runClient rl c ts).1, r = true)
    (hcap : rl.config.requestsPerMinute ≤ (ts.length : Int)) :
    (checkLimit (runClient rl c ts).2 c tNext).allowed = false := by
  have em : msPerMinute = 60000 := by norm_num [msPerMinute]
  have ed : msPerDay = 86400000 := by norm_num [msPerDay, msPerHour, msPerMinute]
  have hts : ∀ a ∈ ts, ∀ b ∈ ts, b - a < msPerDay := by
    intro a ha b hb
    have h1 := hwin a ha
    have h2 := hwin b hb
    omega
  have hsub : ts.Sublist ((runClient rl c ts).2.requests c) := by
    have := runClient_sublist_requests c ts rl [] (List.nil_sublist _) (by simp) hts hadm
    simpa using this
  have hts_day : ts.filter (fun x => decide (tNext - x < msPerDay)) = ts := by
    apply List.filter_eq_self.mpr
    intro a ha
    have := hwin a ha
    exact decide_eq_true (by omega)
  have hts_min : ts.filter (fun x => decide (tNext - x < msPerMinute)) = ts := by
    apply List.filter_eq_self.mpr
    intro a ha
    exact decide_eq_true (hwin a ha).2
  have hsub2 : ts.Sublist (pruneDay tNext ((runClient rl c ts).2.requests c)) := by
    have := hsub.filter (fun x => decide (tNext - x < msPerDay))
    rw [hts_day] at this
    simpa [pruneDay] using this
  have hcount : ts.length ≤ countLastMinute tNext (pruneDay tNext ((runClient rl c ts).2.requests c)) := by
    have := hsub2.filter (fun x => decide (tNext - x < msPerMinute))
    rw [hts_min] at this
    simpa [countLastMinute] using this.length_le
  have hreject := checkLimit_minute_reject (runClient rl c ts).2 c tNext (by
    rw [runClient_config]
    exact hcap.trans (by exact_mod_cast hcount))
  rw [hreject]

theorem minute_cap_never_exceeded_w :
    (checkLimit (runClient ⟨fun _ => [], ⟨2, 10, 10⟩⟩ "A" [0, 0]).2 "A" 0).allowed = false :=
  minute_cap_never_exceeded ⟨fun _ => [], ⟨2, 10, 10⟩⟩ "A" [0, 0] 0
    (by decide) (by decide) (by decide)

/-- Claim C2: when `checkLimit` returns `false` the limiter state is
left completely unchanged — no timestamp is recorded — so a rejected
attempt never affects the outcome of any later call. -/
theorem rejected_call_leaves_state_unchanged (rl : RateLimiter) (c : String) (t : Int)
    (h : (checkLimit rl c t).allowed = false) :
    (checkLimit rl c t).limiter = rl ∧
    ∀ c' t', checkLimit (checkLimit rl c t).limiter c' t' = checkLimit rl c' t' := by
  have hst := checkLimit_limiter_of_reject rl c t h
  exact ⟨hst, fun c' t' => by rw [hst]⟩

theorem rejected_call_leaves_state_unchanged_w :
    (checkLimit (checkLimit ⟨fun k => if k = "A" then [0] else [], ⟨1, 10, 10⟩⟩ "A" 500).limiter
        "A" 1000).allowed =
      (checkLimit (⟨fun k => if k = "A" then [0] else [], ⟨1, 10, 10⟩⟩ : RateLimiter)
        "A" 1000).allowed := by
  rw [(rejected_call_leaves_state_unchanged ⟨fun k => if k = "A" then [0] else [], ⟨1, 10, 10⟩⟩
    "A" 500 (by decide)).2 "A" 1000]

/-- Claim C3: the three windows are evaluated in the fixed order
minute, hour, day; the call rejects on (and warns about) the first
window whose count has reached its cap, whatever the relative sizes of
the three caps. -/
theorem windows_checked_in_order (rl : RateLimiter) (c : String) (now : Int) :
    ((rl.config.requestsPerMinute ≤ (countLastMinute now (pruneDay now (rl.requests c)) : Int)) →
      (checkLimit rl c now).allowed = false ∧
      (checkLimit rl c now).warned = some RateWindow.minute) ∧
    (((countLastMinute now (pruneDay now (rl.requests c)) : Int) < rl.config.requestsPerMinute) →
      (rl.config.requestsPerHour ≤ (countLastHour now (pruneDay now (rl.requests c)) : Int)) →
      (checkLimit rl c now).allowed = false ∧
      (checkLimit rl c now).warned = some RateWindow.hour) ∧
    (((countLastMinute now (pruneDay now (rl.requests c)) : Int) < rl.config.requestsPerMinute) →
      ((countLastHour now (pruneDay now (rl.requests c)) : Int) < rl.config.requestsPerHour) →
      (rl.config.requestsPerDay ≤ ((pruneDay now (rl.requests c)).length : Int)) →
      (checkLimit rl c now).allowed = false ∧
      (checkLimit rl c now).warned = some RateWindow.day) ∧
    (((countLastMinute now (pruneDay now (rl.requests c)) : Int) < rl.config.requestsPerMinute) →
      ((countLastHour now (pruneDay now (rl.requests c)) : Int) < rl.config.requestsPerHour) →
      (((pruneDay now (rl.requests c)).length : Int) < rl.config.requestsPerDay) →
      (checkLimit rl c now).allowed = true ∧
      (checkLimit rl c now).warned = none) := by
  refine ⟨fun h => ?_, fun hm hh => ?_, fun hm hh hd => ?_, fun hm hh hd => ?_⟩
  · rw [checkLimit_minute_reject rl c now h]
    exact ⟨rfl, rfl⟩
  · rw [checkLimit_hour_reject rl c now hm hh]
    exact ⟨rfl, rfl⟩
  · rw [checkLimit_day_reject rl c now hm hh hd]
    exact ⟨rfl, rfl⟩
  · rw [checkLimit_pass rl c now hm hh hd]
    exact ⟨rfl, rfl⟩

theorem windows_checked_in_order_w :
    (checkLimit (⟨fun k => if k = "A" then [9900000] else [], ⟨5, 1, 10⟩⟩ : RateLimiter)
      "A" 10000000).warned = some RateWindow.hour :=
  ((windows_checked_in_order ⟨fun k => if k = "A" then [9900000] else [], ⟨5, 1, 10⟩⟩
    "A" 10000000).2.1 (by decide) (by decide)).2

/-- Claim C4 counterexample: with caps {minute:1, hour:10, day:10},
after calls for "A" at instants 0 and 86399000 (both admitted) and
86400500 (rejected by the minute window), the persisted record still
contains timestamp 0, which is at least a full 24 hours older than the
rejected call's instant — the prune is not persisted on rejection. -/
theorem stale_timestamp_persists_after_reject :
    (runClient ⟨fun _ => [], ⟨1, 10, 10⟩⟩ "A" [0, 86399000, 86400500]).1 =
      [true, true, false] ∧
    (0 : Int) ∈ (runClient ⟨fun _ => [], ⟨1, 10, 10⟩⟩ "A" [0, 86399000, 86400500]).2.requests "A" ∧
    msPerDay ≤ (86400500 : Int) - 0 := by
  refine ⟨by decide, by decide, by decide⟩

/-- Claim C4 (amended): the persisted list is pruned to the trailing
24-hour window only on admitted calls (day-pruned old entries plus the
call's instant); on rejected calls the store is left unchanged, so
stale entries may persist.  Counts are always computed from the pruned
view, so decisions are unaffected. -/
theorem prune_persisted_only_on_admission (rl : RateLimiter) (c : String) (t : Int) :
    ((checkLimit rl c t).allowed = true →
      ∀ x ∈ (checkLimit rl c t).limiter.requests c, t - x < msPerDay) ∧
    ((checkLimit rl c t).allowed = false → (checkLimit rl c t).limiter = rl) := by
  constructor
  · intro h x hx
    rw [checkLimit_requests_self_of_allowed rl c t h] at hx
    rcases List.mem_append.mp hx with hx | hx
    · have hx' : x ∈ rl.requests c ∧ t - x < msPerDay := by simpa [pruneDay] using hx
      exact hx'.2
    · rcases List.mem_singleton.mp hx with rfl
      have ed : msPerDay = 86400000 := by norm_num [msPerDay, msPerHour, msPerMinute]
      omega
  · exact checkLimit_limiter_of_reject rl c t

theorem prune_persisted_only_on_admission_w :
    (70000 : Int) - 100 < msPerDay :=
  (prune_persisted_only_on_admission ⟨fun k => if k = "A" then [100] else [], ⟨2, 10, 10⟩⟩
    "A" 70000).1 (by decide) 100 (by decide)

/-- Claim C5: an admitted request at `t` has no influence on a call
24h+1ms later: by then the pruned history is empty and the decision
(both the boolean and any warned window) agrees with the decision for
a never-seen client. -/
theorem day_separated_requests_independent (rl : RateLimiter) (c : String) (t : Int)
    (h0 : rl.requests c = [])
    (hm : 0 < rl.config.requestsPerMinute)
    (hh : 0 < rl.config.requestsPerHour)
    (hd : 0 < rl.config.requestsPerDay) :
    (checkLimit rl c t).allowed = true ∧
    pruneDay (t + msPerDay + 1) ((checkLimit rl c t).limiter.requests c) = [] ∧
    (checkLimit (checkLimit rl c t).limiter c (t + msPerDay + 1)).allowed =
      (checkLimit rl c (t + msPerDay + 1)).allowed ∧
    (checkLimit (checkLimit rl c t).limiter c (t + msPerDay + 1)).warned =
      (checkLimit rl c (t + msPerDay + 1)).warned := by
  have hempty : pruneDay t (rl.requests c) = [] := by simp [pruneDay, h0]
  have hcm : (countLastMinute t (pruneDay t (rl.requests c)) : Int) <
      rl.config.requestsPerMinute := by
    rw [hempty]
    simpa [countLastMinute] using hm
  have hch : (countLastHour t (pruneDay t (rl.requests c)) : Int) <
      rl.config.requestsPerHour := by
    rw [hempty]
    simpa [countLastHour] using hh
  have hcd : ((pruneDay t (rl.requests c)).length : Int) < rl.config.requestsPerDay := by
    rw [hempty]
    simpa using hd
  have hallow : (checkLimit rl c t).allowed = true := by
    rw [checkLimit_pass rl c t hcm hch hcd]
  have hreqs : (checkLimit rl c t).limiter.requests c = [t] := by
    rw [checkLimit_requests_self_of_allowed rl c t hallow, hempty]
    rfl
  have hcond : ¬ (t + msPerDay + 1 - t < msPerDay) := by omega
  have hprune2 : pruneDay (t + msPerDay + 1) ((checkLimit rl c t).limiter.requests c) = [] := by
    rw [hreqs]
    simp [pruneDay, hcond]
  have hcongr := checkLimit_congr_pruned (checkLimit rl c t).limiter rl c (t + msPerDay + 1)
    (by rw [hprune2]; simp [pruneDay, h0]) (checkLimit_limiter_config rl c t)
  exact ⟨hallow, hprune2, hcongr.1, hcongr.2⟩

theorem day_separated_requests_independent_w :
    (checkLimit (⟨fun _ => [], ⟨2, 10, 10⟩⟩ : RateLimiter) "A" 0).allowed = true :=
  (day_separated_requests_independent ⟨fun _ => [], ⟨2, 10, 10⟩⟩ "A" 0
    (by decide) (by decide) (by decide) (by decide)).1

/-- Claim C6 (code bug): the constructor performs no validation at
all — a non-positive cap such as `requestsPerMinute = 0` is silently
accepted into the constructed instance's configuration instead of
being rejected at construction time. -/
theorem nonpositive_cap_silently_accepted :
    (RateLimiter.make (some { requestsPerMinute := some 0 })).config =
      { requestsPerMinute := 0, requestsPerHour := 1000, requestsPerDay := 5000 } := by
  decide

/-- Claim C7: two distinct client identifiers never share quota — any
sequence of calls for clients other than `b` leaves both components of
a subsequent decision for `b` exactly as they would have been without
those calls. -/
theorem distinct_clients_isolated (rl : RateLimiter) (calls : List (String × Int))
    (b : String) (t : Int) (h : ∀ p ∈ calls, p.1 ≠ b) :
    (checkLimit (runCalls rl calls).2 b t).allowed = (checkLimit rl b t).allowed ∧
    (checkLimit (runCalls rl calls).2 b t).warned = (checkLimit rl b t).warned := by
  have hp := runCalls_preserves_other b calls rl h
  exact checkLimit_congr_pruned _ rl b t (by rw [hp.1]) hp.2

theorem distinct_clients_isolated_w :
    (checkLimit (runCalls ⟨fun _ => [], ⟨2, 10, 10⟩⟩
      [("A", 0), ("A", 0), ("A", 0)]).2 "B" 0).allowed = true := by
  rw [(distinct_clients_isolated ⟨fun _ => [], ⟨2, 10, 10⟩⟩
    [("A", 0), ("A", 0), ("A", 0)] "B" 0 (by decide)).1]
  decide

/-- Claim C8: with no overrides the constructor yields caps
60/1000/5000; the chat-proxy instance yields 15/250/500 when the
environment provides no numeric values; and an unset or non-numeric
environment override for a cap always falls back to that cap's
documented default (never an unbounded, NaN, or zero cap). -/
theorem default_caps_and_env_fallback :
    (RateLimiter.make none).config = ⟨60, 1000, 5000⟩ ∧
    (chatRateLimiter .missing .missing .missing).config = ⟨15, 250, 500⟩ ∧
    ∀ e1 e2 e3 : EnvValue,
      ((e1 = .missing ∨ e1 = .nonNumeric) →
        (chatRateLimiter e1 e2 e3).config.requestsPerMinute = 15) ∧
      ((e2 = .missing ∨ e2 = .nonNumeric) →
        (chatRateLimiter e1 e2 e3).config.requestsPerHour = 250) ∧
      ((e3 = .missing ∨ e3 = .nonNumeric) →
        (chatRateLimiter e1 e2 e3).config.requestsPerDay = 500) := by
  refine ⟨by decide, by decide, fun e1 e2 e3 => ⟨?_, ?_, ?_⟩⟩ <;> rintro (rfl | rfl) <;> rfl

theorem default_caps_and_env_fallback_w :
    (chatRateLimiter .missing .nonNumeric (.numeric 7)).config.requestsPerHour = 250 :=
  (default_caps_and_env_fallback.2.2 .missing .nonNumeric (.numeric 7)).2.1 (Or.inr rfl)

/-- Claim C10: window membership is strict on age — a timestamp aged
exactly the window length is excluded from that window's count (and at
exactly 24 hours it is pruned); one aged a millisecond less is
included. -/
theorem window_boundaries_strict (now : Int) :
    countLastMinute now [now - 60000] = 0 ∧
    countLastMinute now [now - 59999] = 1 ∧
    countLastHour now [now - 3600000] = 0 ∧
    countLastHour now [now - 3599999] = 1 ∧
    pruneDay now [now - 86400000] = [] ∧
    pruneDay now [now - 86399999] = [now - 86399999] := by
  refine ⟨?_, ?_, ?_, ?_, ?_, ?_⟩ <;>
    simp [countLastMinute, countLastHour, pruneDay, msPerMinute, msPerHour, msPerDay]
